import Mathlib

/-!
Verification development for the show-and-tell run orchestrator.

The Python backend (backend/app/{runner,api,synthesis}.py) is shallowly
embedded: strings are lists of characters, dict arguments are association
lists, float arithmetic is modelled over the rationals, and the
asynchronous callback surface is modelled by explicit oracles.  Every
definition follows the corresponding Python function; deviations forced by
the host language are noted in the doc comments.
-/

namespace ShowAndTell

/-- Python strings are modelled as lists of characters. -/
abbrev Str := List Char

deriving instance DecidableEq for Except

/-- The opening curly brace character, written via its code point. -/
def lbrace : Char := Char.ofNat 123

/-- The closing curly brace character, written via its code point. -/
def rbrace : Char := Char.ofNat 125

/-- The ASCII single quote character. -/
def squote : Char := Char.ofNat 39

/-- ASCII whitespace as recognised by the regex class backslash-s and by
Python `str.strip`: space, tab, newline, vertical tab, form feed,
carriage return. -/
def isPySpace (c : Char) : Bool :=
  c = ' ' || c = Char.ofNat 9 || c = Char.ofNat 10 || c = Char.ofNat 11 ||
    c = Char.ofNat 12 || c = Char.ofNat 13

/-- A character other than the two curly braces (the regex class used for
placeholder bodies). -/
def isNonBrace (c : Char) : Bool :=
  ¬ (c = lbrace || c = rbrace)

/-- Python `str.strip()` restricted to ASCII whitespace. -/
def pyStrip (s : Str) : Str :=
  ((s.dropWhile isPySpace).reverse.dropWhile isPySpace).reverse

/-- `str.startswith` for list-of-character strings. -/
def startsWithStr (s p : Str) : Bool :=
  match p, s with
  | [], _ => true
  | _ :: _, [] => false
  | pc :: pr, sc :: sr => pc = sc && startsWithStr sr pr

/-- Variable values in a plan: `VarValue = Union[str, int, float]` in
`synthesis.py`.  Numbers are modelled by integers; the float alternative is
not needed by any claim and is omitted from the model. -/
inductive VarValue where
  | vStr (s : Str)
  | vInt (n : Int)
deriving DecidableEq, Repr

/-- Python `str(value)` on a `VarValue`. -/
def strOfVar : VarValue → Str
  | .vStr s => s
  | .vInt n => (toString n).data

/-- A variable map (Python dict with unique keys, in insertion order). -/
abbrev Vars := List (Str × VarValue)

/-- Dict lookup: `vars[key]` / `key in vars`. -/
def lookupVar (vars : Vars) (k : Str) : Option VarValue :=
  match vars.find? (fun p => p.1 = k) with
  | some p => some p.2
  | none => none

/-! ## Placeholder engine (`synthesis.py`)

`_PLACEHOLDER_PATTERN` is the verbose regex

  double braces, optional space, a body starting with a non-space
  non-brace character followed by non-brace characters, optional space,
  double closing braces — or a single-brace form whose body is one or
  more non-brace characters.

`re.sub`/`re.finditer` scan left to right and take, at the first position
where the pattern matches, the alternation-and-greediness preferred match.
For this pattern that match is computed exactly by `tryMatchAt` below:
the double-brace alternative matches at a position precisely when two
opening braces are followed by optional whitespace, a non-space non-brace
character, a maximal run of non-brace characters and two closing braces;
the single-brace alternative needs an opening brace, a nonempty maximal
run of non-brace characters and a closing brace. -/

/-- The result of matching `_PLACEHOLDER_PATTERN` at the head of a string:
the raw matched text, the extracted key (`_extract_placeholder`, which
strips the captured group and maps empty results to `None`), and the
remaining suffix. -/
structure PMatch where
  raw : Str
  key : Option Str
  rest : Str
deriving DecidableEq, Repr

/-- `_extract_placeholder`: strip the captured body; an empty result means
no placeholder name. -/
def extractPlaceholder (body : Str) : Option Str :=
  let c := pyStrip body
  if c = [] then none else some c

/-- The double-brace alternative of `_PLACEHOLDER_PATTERN` matched at the
head of the string. -/
def tryDouble (s : Str) : Option PMatch :=
  match s with
  | a :: b :: rest =>
    if a = lbrace ∧ b = lbrace then
      let ws := rest.takeWhile isPySpace
      let after := rest.dropWhile isPySpace
      match after with
      | [] => none
      | c0 :: _ =>
        if c0 = lbrace ∨ c0 = rbrace then none
        else
          let run := after.takeWhile isNonBrace
          match after.dropWhile isNonBrace with
          | d :: e :: tail =>
            if d = rbrace ∧ e = rbrace then
              some ⟨[lbrace, lbrace] ++ ws ++ run ++ [rbrace, rbrace],
                    extractPlaceholder run, tail⟩
            else none
          | _ => none
    else none
  | _ => none

/-- The single-brace alternative of `_PLACEHOLDER_PATTERN` matched at the
head of the string. -/
def trySingle (s : Str) : Option PMatch :=
  match s with
  | a :: rest =>
    if a = lbrace then
      let run := rest.takeWhile isNonBrace
      if run = [] then none
      else
        match rest.dropWhile isNonBrace with
        | d :: tail =>
          if d = rbrace then
            some ⟨lbrace :: run ++ [rbrace], extractPlaceholder run, tail⟩
          else none
        | [] => none
    else none
  | [] => none

/-- `_PLACEHOLDER_PATTERN` matched at the head of the string: the double
alternative is preferred, matching the order of the alternation in the
regex. -/
def tryMatchAt (s : Str) : Option PMatch :=
  match tryDouble s with
  | some m => some m
  | none => trySingle s

/-- One piece of the left-to-right non-overlapping scan of a text: either a
character not covered by any match, or a match of the pattern. -/
inductive Piece where
  | gap (c : Char)
  | hit (m : PMatch)
deriving DecidableEq, Repr

/-- The non-overlapping left-to-right decomposition performed by
`re.finditer` / `re.sub` on `_PLACEHOLDER_PATTERN`, with explicit fuel
(the fuel is always instantiated with the length of the string, which
bounds the number of scanning steps). -/
def piecesF : Nat → Str → List Piece
  | 0, _ => []
  | _ + 1, [] => []
  | fuel + 1, c :: tail =>
    match tryMatchAt (c :: tail) with
    | some m => .hit m :: piecesF fuel m.rest
    | none => .gap c :: piecesF fuel tail

/-- `apply_plan_variables` on one text: `re.sub` with the replacement
function that substitutes `str(vars[key])` for placeholders whose key is in
the map and returns the match verbatim otherwise.  Written with explicit
fuel, instantiated with the length of the string. -/
def subAuxF (vars : Vars) : Nat → Str → Str
  | 0, s => s
  | _ + 1, [] => []
  | fuel + 1, c :: tail =>
    match tryMatchAt (c :: tail) with
    | some m =>
      (match m.key with
       | some k =>
         match lookupVar vars k with
         | some v => strOfVar v
         | none => m.raw
       | none => m.raw) ++ subAuxF vars fuel m.rest
    | none => c :: subAuxF vars fuel tail

/-- `apply_plan_variables(value, vars)` for a non-`None` text. -/
def applyPlanVariables (vars : Vars) (s : Str) : Str :=
  subAuxF vars s.length s

/-- The raw text of a piece (for a gap, the character itself). -/
def pieceRaw : Piece → Str
  | .gap c => [c]
  | .hit m => m.raw

/-- Rendering of one piece under a variable map, exactly as the claim
describes the substitution: a placeholder whose key is present in the map
becomes `str(value)`; any other piece is reproduced verbatim. -/
def pieceRender (vars : Vars) : Piece → Str
  | .gap c => [c]
  | .hit m =>
    match m.key with
    | some k =>
      match lookupVar vars k with
      | some v => strOfVar v
      | none => m.raw
    | none => m.raw

/-- The placeholder keys of a text, in scan order (the per-text portion of
`collect_plan_placeholders`, which runs `finditer` with the same pattern
and keeps the non-`None` extracted keys). -/
def textPlaceholders (s : Str) : List Str :=
  (piecesF s.length s).filterMap fun p =>
    match p with
    | .hit m => m.key
    | .gap _ => none

/-- Concatenate the images of the pieces under a rendering function. -/
def flattenWith (f : Piece → Str) (ps : List Piece) : Str :=
  ps.foldr (fun p acc => f p ++ acc) []

lemma tryDouble_raw_rest {s : Str} {m : PMatch} (h : tryDouble s = some m) :
    m.raw ++ m.rest = s ∧ m.raw ≠ [] := by
  match s with
  | [] => simp [tryDouble] at h
  | [a] => simp [tryDouble] at h
  | a :: b :: rest =>
    simp only [tryDouble] at h
    split at h
    case isFalse => exact absurd h (by simp)
    case isTrue hab =>
      split at h
      case h_1 => exact absurd h (by simp)
      case h_2 c0 cs hafter =>
        split at h
        case isTrue => exact absurd h (by simp)
        case isFalse hc0 =>
          split at h
          case h_2 => exact absurd h (by simp)
          case h_1 d e tail hdrop =>
            split at h
            case isFalse => exact absurd h (by simp)
            case isTrue hde =>
              obtain ⟨ha, hb⟩ := hab
              obtain ⟨hd, he⟩ := hde
              cases h
              refine ⟨?_, by simp⟩
              subst ha hb hd he
              have h1 : rest.takeWhile isPySpace ++ rest.dropWhile isPySpace = rest :=
                List.takeWhile_append_dropWhile isPySpace rest
              have h2 : (rest.dropWhile isPySpace).takeWhile isNonBrace ++
                  (rbrace :: rbrace :: tail) = rest.dropWhile isPySpace := by
                rw [← hdrop]
                exact List.takeWhile_append_dropWhile isNonBrace (rest.dropWhile isPySpace)
              simp only [List.append_assoc, List.cons_append, List.nil_append]
              rw [h2, h1]

lemma trySingle_raw_rest {s : Str} {m : PMatch} (h : trySingle s = some m) :
    m.raw ++ m.rest = s ∧ m.raw ≠ [] := by
  match s with
  | [] => simp [trySingle] at h
  | a :: rest =>
    simp only [trySingle] at h
    split at h
    case isFalse => exact absurd h (by simp)
    case isTrue ha =>
      split at h
      case isTrue => exact absurd h (by simp)
      case isFalse hrun =>
        split at h
        case h_2 => exact absurd h (by simp)
        case h_1 d tail hdrop =>
          split at h
          case isFalse => exact absurd h (by simp)
          case isTrue hd =>
            cases h
            refine ⟨?_, by simp⟩
            subst ha hd
            have h2 : rest.takeWhile isNonBrace ++ (rbrace :: tail) = rest := by
              rw [← hdrop]
              exact List.takeWhile_append_dropWhile isNonBrace rest
            simp only [List.append_assoc, List.cons_append, List.nil_append]
            rw [h2]

lemma tryMatchAt_raw_rest {s : Str} {m : PMatch} (h : tryMatchAt s = some m) :
    m.raw ++ m.rest = s ∧ m.raw ≠ [] := by
  unfold tryMatchAt at h
  cases hd : tryDouble s with
  | some m0 =>
    rw [hd] at h
    cases h
    exact tryDouble_raw_rest hd
  | none =>
    rw [hd] at h
    exact trySingle_raw_rest h

lemma tryMatchAt_rest_lt {s : Str} {m : PMatch} (h : tryMatchAt s = some m) :
    m.rest.length < s.length := by
  obtain ⟨happ, hne⟩ := tryMatchAt_raw_rest h
  have := congrArg List.length happ
  simp only [List.length_append] at this
  cases hraw : m.raw with
  | nil => exact absurd hraw hne
  | cons x xs =>
    rw [hraw] at this
    simp only [List.length_cons] at this
    omega

@[simp] lemma flattenWith_nil (f : Piece → Str) : flattenWith f [] = [] := rfl

@[simp] lemma flattenWith_cons (f : Piece → Str) (p : Piece) (ps : List Piece) :
    flattenWith f (p :: ps) = f p ++ flattenWith f ps := rfl

lemma piecesF_flattenRaw : ∀ (fuel : Nat) (s : Str), s.length ≤ fuel →
    flattenWith pieceRaw (piecesF fuel s) = s := by
  intro fuel
  induction fuel with
  | zero =>
    intro s hs
    cases s with
    | nil => rfl
    | cons c tail => simp at hs
  | succ n ih =>
    intro s hs
    cases s with
    | nil => rfl
    | cons c tail =>
      cases hm : tryMatchAt (c :: tail) with
      | some m =>
        have hlt := tryMatchAt_rest_lt hm
        have hr := (tryMatchAt_raw_rest hm).1
        simp only [piecesF, hm, flattenWith_cons, pieceRaw]
        rw [ih m.rest (by simp only [List.length_cons] at hs hlt ⊢; omega)]
        exact hr
      | none =>
        simp only [piecesF, hm, flattenWith_cons, pieceRaw]
        rw [ih tail (by simp only [List.length_cons] at hs; omega)]
        rfl

lemma subAuxF_eq_render : ∀ (fuel : Nat) (vars : Vars) (s : Str), s.length ≤ fuel →
    subAuxF vars fuel s = flattenWith (pieceRender vars) (piecesF fuel s) := by
  intro fuel
  induction fuel with
  | zero =>
    intro vars s hs
    cases s with
    | nil => rfl
    | cons c tail => simp at hs
  | succ n ih =>
    intro vars s hs
    cases s with
    | nil => rfl
    | cons c tail =>
      cases hm : tryMatchAt (c :: tail) with
      | some m =>
        have hlt := tryMatchAt_rest_lt hm
        simp only [subAuxF, piecesF, hm, flattenWith_cons, pieceRender]
        rw [ih vars m.rest (by simp only [List.length_cons] at hs hlt ⊢; omega)]
      | none =>
        simp only [subAuxF, piecesF, hm, flattenWith_cons, pieceRender]
        rw [ih vars tail (by simp only [List.length_cons] at hs; omega)]
        rfl

lemma render_eq_raw_of_unknown (vars : Vars) :
    ∀ ps : List Piece,
      (∀ m : PMatch, Piece.hit m ∈ ps → ∀ k, m.key = some k → lookupVar vars k = none) →
      flattenWith (pieceRender vars) ps = flattenWith pieceRaw ps := by
  intro ps
  induction ps with
  | nil => intro _; rfl
  | cons p tail ih =>
    intro hp
    have htail := ih fun m hm k hk => hp m (List.mem_cons_of_mem _ hm) k hk
    cases p with
    | gap c => simp [pieceRender, pieceRaw, htail]
    | hit m =>
      simp only [flattenWith_cons, pieceRender, pieceRaw, htail]
      cases hk : m.key with
      | none => rfl
      | some k =>
        have hl := hp m (List.mem_cons_self _ _) k hk
        simp [hl]

/-- **C9.** `apply_plan_variables` substitutes each placeholder whose name is
a key of the variable map with `str(value)` and leaves every other piece of
the text — including unknown placeholders — verbatim: it renders the
non-overlapping regex decomposition of the text piece by piece.  With an
empty map, and more generally whenever no placeholder of the text is a key
of the map, the text is returned unchanged; in particular
`apply(text, empty) = text` for any text without placeholders. -/
theorem c9_apply_substitutes_known_placeholders :
    (∀ s : Str, applyPlanVariables [] s = s) ∧
    (∀ (s : Str) (vars : Vars),
        applyPlanVariables vars s = flattenWith (pieceRender vars) (piecesF s.length s)) ∧
    (∀ s : Str, flattenWith pieceRaw (piecesF s.length s) = s) ∧
    (∀ (s : Str) (vars : Vars),
        (∀ k, k ∈ textPlaceholders s → lookupVar vars k = none) →
        applyPlanVariables vars s = s) := by
  have hrender : ∀ (s : Str) (vars : Vars),
      applyPlanVariables vars s = flattenWith (pieceRender vars) (piecesF s.length s) :=
    fun s vars => subAuxF_eq_render s.length vars s le_rfl
  have hraw : ∀ s : Str, flattenWith pieceRaw (piecesF s.length s) = s :=
    fun s => piecesF_flattenRaw s.length s le_rfl
  have hunknown : ∀ (s : Str) (vars : Vars),
      (∀ k, k ∈ textPlaceholders s → lookupVar vars k = none) →
      applyPlanVariables vars s = s := by
    intro s vars hv
    rw [hrender s vars, render_eq_raw_of_unknown vars _ ?_, hraw s]
    intro m hm k hk
    refine hv k ?_
    unfold textPlaceholders
    refine List.mem_filterMap.mpr ⟨Piece.hit m, hm, ?_⟩
    exact hk
  refine ⟨?_, hrender, hraw, hunknown⟩
  intro s
  refine hunknown s [] ?_
  intro k _
  rfl

/-- Witness for C9: a text whose only placeholder is unknown to the
variable map is returned verbatim. -/
theorem c9_witness :
    applyPlanVariables [("user".data, .vStr "Ada".data)] "hello \x7bname\x7d".data =
      "hello \x7bname\x7d".data :=
  c9_apply_substitutes_known_placeholders.2.2.2 _ _ (by decide)

/-! ## Coordinate denormalization (`runner.py::_denormalize_point`)

Python floats are modelled by rationals; `round` is round-half-to-even as
in Python 3. -/

/-- `NORMALIZED_RANGE = 999`. -/
def NORMALIZED_RANGE : ℚ := 999

/-- Viewport width of `RUNNER_VIEWPORT`. -/
def RUNNER_VIEWPORT_W : ℤ := 1440

/-- Viewport height of `RUNNER_VIEWPORT`. -/
def RUNNER_VIEWPORT_H : ℤ := 900

/-- Python 3 `round` on a real value: round half to even. -/
def pyRound (q : ℚ) : ℤ :=
  let f := ⌊q⌋
  let r := q - f
  if r < 1/2 then f
  else if 1/2 < r then f + 1
  else if f % 2 = 0 then f else f + 1

/-- The `clamp` helper inside `_denormalize_point`:
`max(0.0, min(coord, float(NORMALIZED_RANGE)))`. -/
def clampNorm (coord : ℚ) : ℚ :=
  max 0 (min coord NORMALIZED_RANGE)

/-- `_denormalize_point(x_norm, y_norm)`: clamp both coordinates to the
normalized range, then scale by `(dim - 1) / 999` and round. -/
def denormalizePoint (xNorm yNorm : ℚ) : ℤ × ℤ :=
  let xClamped := clampNorm xNorm
  let yClamped := clampNorm yNorm
  (pyRound ((xClamped / NORMALIZED_RANGE) * ((RUNNER_VIEWPORT_W : ℚ) - 1)),
   pyRound ((yClamped / NORMALIZED_RANGE) * ((RUNNER_VIEWPORT_H : ℚ) - 1)))

lemma pyRound_nonneg {q : ℚ} (h : 0 ≤ q) : 0 ≤ pyRound q := by
  have hf : (0 : ℤ) ≤ ⌊q⌋ := Int.floor_nonneg.mpr h
  simp only [pyRound]
  split_ifs <;> omega

lemma pyRound_le {q : ℚ} {B : ℤ} (h : q ≤ B) : pyRound q ≤ B := by
  have hfl : ⌊q⌋ ≤ B := by
    calc ⌊q⌋ ≤ ⌊(B : ℚ)⌋ := Int.floor_le_floor h
    _ = B := Int.floor_intCast B
  have hceil : ⌈q⌉ ≤ B := Int.ceil_le.mpr h
  simp only [pyRound]
  split_ifs with h1 h2 h3
  · exact hfl
  · have hlt : (⌊q⌋ : ℚ) < q := by linarith
    have hc : ⌊q⌋ + 1 ≤ ⌈q⌉ := Int.add_one_le_iff.mpr (Int.lt_ceil.mpr hlt)
    omega
  · exact hfl
  · have h1' : (1 : ℚ)/2 ≤ q - ⌊q⌋ := not_lt.mp h1
    have hlt : (⌊q⌋ : ℚ) < q := by linarith
    have hc : ⌊q⌋ + 1 ≤ ⌈q⌉ := Int.add_one_le_iff.mpr (Int.lt_ceil.mpr hlt)
    omega

lemma denormalize_core (v : ℚ) (d : ℤ) (hd : 1 ≤ d) :
    0 ≤ pyRound ((clampNorm v / NORMALIZED_RANGE) * ((d : ℚ) - 1)) ∧
      pyRound ((clampNorm v / NORMALIZED_RANGE) * ((d : ℚ) - 1)) ≤ d - 1 := by
  have h0 : (0 : ℚ) ≤ clampNorm v := le_max_left 0 _
  have h999 : clampNorm v ≤ NORMALIZED_RANGE := by
    refine max_le ?_ (min_le_right _ _)
    unfold NORMALIZED_RANGE
    norm_num
  have hfrac0 : (0 : ℚ) ≤ clampNorm v / NORMALIZED_RANGE := by
    refine div_nonneg h0 ?_
    unfold NORMALIZED_RANGE
    norm_num
  have hfrac1 : clampNorm v / NORMALIZED_RANGE ≤ 1 := by
    rw [div_le_one (by unfold NORMALIZED_RANGE; norm_num)]
    exact h999
  have hd1 : (0 : ℚ) ≤ (d : ℚ) - 1 := by
    have : (1 : ℚ) ≤ (d : ℚ) := by exact_mod_cast hd
    linarith
  have hq0 : (0 : ℚ) ≤ (clampNorm v / NORMALIZED_RANGE) * ((d : ℚ) - 1) :=
    mul_nonneg hfrac0 hd1
  have hq1 : (clampNorm v / NORMALIZED_RANGE) * ((d : ℚ) - 1) ≤ ((d - 1 : ℤ) : ℚ) := by
    push_cast
    calc (clampNorm v / NORMALIZED_RANGE) * ((d : ℚ) - 1) ≤ 1 * ((d : ℚ) - 1) := by
          exact mul_le_of_le_one_left hd1 hfrac1 |>.trans (by rw [one_mul])
    _ = (d : ℚ) - 1 := by rw [one_mul]
  exact ⟨pyRound_nonneg hq0, pyRound_le hq1⟩

/-- **C8.** Denormalization clamps each normalized coordinate to the 0–999
grid and maps `v` to `round((v/999)*(dim-1))`, so for every input — even
outside the grid — the resulting pixel lies inside the 1440 by 900
viewport: the x pixel is in `[0, 1439]` and the y pixel is in `[0, 899]`. -/
theorem c8_denormalize_point_in_viewport :
    ∀ x y : ℚ,
      0 ≤ (denormalizePoint x y).1 ∧ (denormalizePoint x y).1 ≤ RUNNER_VIEWPORT_W - 1 ∧
      0 ≤ (denormalizePoint x y).2 ∧ (denormalizePoint x y).2 ≤ RUNNER_VIEWPORT_H - 1 := by
  intro x y
  have hx := denormalize_core x RUNNER_VIEWPORT_W (by unfold RUNNER_VIEWPORT_W; norm_num)
  have hy := denormalize_core y RUNNER_VIEWPORT_H (by unfold RUNNER_VIEWPORT_H; norm_num)
  exact ⟨hx.1, hx.2, hy.1, hy.2⟩

/-! ## URL salvage (`runner.py::_extract_first_url` and the alias handling
in `ComputerUseAgent.propose_actions`)

The two regex searches are specialised to executable scanners.  `re.search`
returns the match at the leftmost position where the pattern matches, with
alternation preferring the earlier branch and greedy quantifiers backing
off only as far as needed; for these two patterns the preferred match is
computed closed-form as follows.

For the scheme pattern (`http` with optional `s`, then `://`, then one or
more characters that are neither whitespace nor a closing parenthesis) a
match at a position is the scheme followed by the maximal run of tail
characters, which must be nonempty.

For the bare-host pattern (word boundary, optional `www.`, one or more
host characters, a dot, at least two letters, optional slash-path) a match
at a position needs a word boundary; the host-character class contains the
dot, so the greedy first group forces the chosen dot to be the rightmost
dot of the maximal host-character run that is followed by at least two
letters; the letter group is maximal, and the optional path consumes a
slash plus the maximal run of tail characters when present. -/

/-- ASCII letter, as in the regex classes. -/
def isLetterAZ (c : Char) : Bool :=
  ('A' ≤ c ∧ c ≤ 'Z') || ('a' ≤ c ∧ c ≤ 'z')

/-- ASCII digit. -/
def isDigit09 (c : Char) : Bool :=
  '0' ≤ c ∧ c ≤ '9'

/-- Regex word character (for the word-boundary assertion). -/
def isWordChar (c : Char) : Bool :=
  isLetterAZ c || isDigit09 c || c = '_'

/-- The host-character class: letters, digits, dot, dash. -/
def isHostChar (c : Char) : Bool :=
  isLetterAZ c || isDigit09 c || c = '.' || c = '-'

/-- The URL-tail class: anything but whitespace and a closing parenthesis. -/
def isUrlTailChar (c : Char) : Bool :=
  ¬ (isPySpace c || c = ')')

/-- Python `m.group(0).rstrip(".,)")`. -/
def rstripPunct (s : Str) : Str :=
  (s.reverse.dropWhile fun c => c = '.' || c = ',' || c = ')').reverse

/-- Python `str.lower()` (ASCII). -/
def lowerStr (s : Str) : Str :=
  s.map Char.toLower

/-- Match `scheme` followed by a nonempty maximal run of URL-tail
characters at the head of the string. -/
def matchSchemeRun (s : Str) (scheme : Str) : Option Str :=
  if startsWithStr s scheme then
    let rest := s.drop scheme.length
    let run := rest.takeWhile isUrlTailChar
    if run = [] then none else some (scheme ++ run)
  else none

/-- The scheme pattern matched at the head of the string; the `https`
variant is preferred by greediness of the optional `s`. -/
def tryHttpAt (s : Str) : Option Str :=
  match matchSchemeRun s "https://".data with
  | some m => some m
  | none => matchSchemeRun s "http://".data

/-- Leftmost match of the scheme pattern (the first `re.search` in
`_extract_first_url`). -/
def scanHttp : Str → Option Str
  | [] => none
  | c :: tail =>
    match tryHttpAt (c :: tail) with
    | some m => some m
    | none => scanHttp tail

/-- Length of the maximal letter run at the head of the string. -/
def letterRunLen (s : Str) : Nat :=
  (s.takeWhile isLetterAZ).length

/-- The split position chosen by the greedy host group: the largest
`k ≥ 1` such that the host run has a dot at index `k` followed by at least
two letters. -/
def bestHostSplit (run : Str) : Option Nat :=
  (List.range run.length).reverse.find? fun k =>
    decide (1 ≤ k ∧ run.getD k ' ' = '.' ∧ 2 ≤ letterRunLen (run.drop (k + 1)))

/-- Match `host.tld` with optional `/path` at the head of the string. -/
def tryHostRun (s : Str) : Option Str :=
  let run := s.takeWhile isHostChar
  if run = [] then none
  else
    match bestHostSplit run with
    | none => none
    | some k =>
      let core := run.take (k + 1 + letterRunLen (run.drop (k + 1)))
      match s.drop core.length with
      | c :: t =>
        if c = '/' then some (core ++ c :: t.takeWhile isUrlTailChar) else some core
      | [] => some core

/-- Word-ness of the previous character (absent means non-word). -/
def prevIsWord : Option Char → Bool
  | some p => isWordChar p
  | none => false

/-- The word-boundary assertion between the previous character and the
current one. -/
def isBoundary (prev : Option Char) (c : Char) : Bool :=
  prevIsWord prev != isWordChar c

/-- The bare-host pattern matched at the head of the string, the optional
`www.` branch being preferred. -/
def tryBareAt (prev : Option Char) (s : Str) : Option Str :=
  match s with
  | [] => none
  | c :: _ =>
    if isBoundary prev c then
      if startsWithStr s "www.".data then
        match tryHostRun (s.drop 4) with
        | some core => some ("www.".data ++ core)
        | none => tryHostRun s
      else tryHostRun s
    else none

/-- Leftmost match of the bare-host pattern (the second `re.search` in
`_extract_first_url`), tracking the previous character for the word
boundary. -/
def scanBare (prev : Option Char) : Str → Option Str
  | [] => none
  | c :: tail =>
    match tryBareAt prev (c :: tail) with
    | some m => some m
    | none => scanBare (some c) tail

/-- `_extract_first_url(text)`: first try the scheme pattern, then the
bare-host pattern with the rstrip and conditional `http://` prefix.  The
guard `if not text` also rejects the empty string. -/
def extractFirstUrl (text : Option Str) : Option Str :=
  match text with
  | none => none
  | some s =>
    if s = [] then none
    else
      match scanHttp s with
      | some m => some (rstripPunct m)
      | none =>
        match scanBare none s with
        | some m =>
          let url := rstripPunct m
          if startsWithStr (lowerStr url) "http".data then some url
          else some ("http://".data ++ url)
        | none => none

/-! ## Action parsing (`ComputerUseAgent.propose_actions`) -/

/-- A JSON-ish argument value from a model function call. -/
inductive ArgValue where
  | aStr (s : Str)
  | aNum (q : ℚ)
  | aBool (b : Bool)
  | aNone
deriving DecidableEq, Repr

/-- An argument dict, in insertion order with unique keys. -/
abbrev Args := List (Str × ArgValue)

/-- Dict lookup on arguments. -/
def argsGet (args : Args) (k : Str) : Option ArgValue :=
  match args.find? (fun p => p.1 = k) with
  | some p => some p.2
  | none => none

/-- Python `key in args`. -/
def argsHasKey (args : Args) (k : Str) : Bool :=
  (argsGet args k).isSome

/-- Dict assignment `args[k] = v`: replaces in place, appends when new. -/
def argsSet (args : Args) (k : Str) (v : ArgValue) : Args :=
  if argsHasKey args k then
    args.map fun p => if p.1 = k then (p.1, v) else p
  else args ++ [(k, v)]

/-- Dict `args.pop(k, None)`: the popped value (if any) and the remaining
dict. -/
def argsPop (args : Args) (k : Str) : Option ArgValue × Args :=
  (argsGet args k, args.filter fun p => ¬ p.1 = k)

/-- A structured function call from the model response. -/
structure FCall where
  name : Str
  args : Args
deriving DecidableEq, Repr

/-- A validated action: name, argument dict (with `safety_decision`
removed) and the popped safety decision. -/
structure AgentAction where
  name : Str
  args : Args
  safety : Option ArgValue
deriving DecidableEq, Repr

/-- `ComputerUseAgent.SUPPORTED_ACTIONS`. -/
def SUPPORTED_ACTIONS : List Str :=
  ["navigate".data, "click_at".data, "type_text_at".data, "wait_5_seconds".data,
   "go_back".data, "go_forward".data, "search".data, "hover_at".data,
   "scroll_document".data, "scroll_at".data, "drag_and_drop".data,
   "key_combination".data]

/-- `ComputerUseAgent.ACTION_ALIASES.get(name)`. -/
def actionAlias (name : Str) : Option Str :=
  if name = "open_web_browser".data then some "navigate".data
  else if name = "open_url".data then some "navigate".data
  else none

/-- One iteration of the response-parsing loop in `propose_actions`:
supported names are kept; unsupported names go through the alias map, and
an aliased `navigate` without a `url` argument salvages one from the step
instructions and then from `vars["url"]` (when that value is a string);
names that are still unsupported are dropped.  The `safety_decision`
argument is popped out of the dict in every kept action.  (The alias
targets are all supported, so an aliased call is always kept.) -/
def parseCall (instructions : Option Str) (vars : Vars) (call : FCall) :
    Option AgentAction :=
  if SUPPORTED_ACTIONS.contains call.name then
    let p := argsPop call.args "safety_decision".data
    some ⟨call.name, p.2, p.1⟩
  else
    match actionAlias call.name with
    | none => none
    | some aliased =>
      let args :=
        if aliased = "navigate".data ∧ ¬ argsHasKey call.args "url".data then
          let candidate :=
            match extractFirstUrl instructions with
            | some u => some u
            | none =>
              match lookupVar vars "url".data with
              | some (.vStr s) => some s
              | _ => none
          match candidate with
          | some u => argsSet call.args "url".data (.aStr u)
          | none => call.args
        else call.args
      let p := argsPop args "safety_decision".data
      some ⟨aliased, p.2, p.1⟩

/-- The action list produced by the parsing loop of `propose_actions`. -/
def parseFunctionCalls (instructions : Option Str) (vars : Vars)
    (calls : List FCall) : List AgentAction :=
  calls.filterMap (parseCall instructions vars)

/-- **C7 (counterexample).** The claim states that a salvaged bare
`host.tld` token is prefixed with `http://`.  For the instruction text
`go to httpbin.org and wait` the parser salvages `httpbin.org` — the code
skips the prefix for any token already starting with `http` — so the
aliased navigate action carries a url that does not start with
`http://`. -/
theorem c7_counterexample_no_prefix_for_httpbin :
    parseFunctionCalls (some "go to httpbin.org and wait".data) []
        [⟨"open_web_browser".data, []⟩] =
      [⟨"navigate".data, [("url".data, ArgValue.aStr "httpbin.org".data)], none⟩] ∧
    startsWithStr "httpbin.org".data "http://".data = false := by
  constructor
  · decide
  · decide

/-- **C7 (amended).** For an aliased navigate call (`open_web_browser` or
`open_url`) whose arguments lack `url`, the parser keeps the action as
`navigate` and salvages a url first from the step instructions via
`_extract_first_url` (the first scheme url, else a bare `host.tld[/path]`
token that is prefixed with `http://` only when it does not already start
with `http`, case-insensitively), else from `vars["url"]` when that value
is a string; the action carries the salvaged url, and carries no url when
the salvage fails.  The two closing conjuncts exhibit the prefix rule on
concrete instruction texts. -/
theorem c7_alias_navigate_salvage :
    (∀ (instructions : Option Str) (vars : Vars) (args : Args) (name : Str),
      (name = "open_web_browser".data ∨ name = "open_url".data) →
      argsHasKey args "url".data = false →
      parseCall instructions vars ⟨name, args⟩ =
        (let candidate :=
          match extractFirstUrl instructions with
          | some u => some u
          | none =>
            match lookupVar vars "url".data with
            | some (.vStr s) => some s
            | _ => none
         let args2 :=
          match candidate with
          | some u => argsSet args "url".data (.aStr u)
          | none => args
         let p := argsPop args2 "safety_decision".data
         some ⟨"navigate".data, p.2, p.1⟩)) ∧
    extractFirstUrl (some "visit example.com today".data) =
      some "http://example.com".data ∧
    extractFirstUrl (some "visit httpbin.org".data) =
      some "httpbin.org".data := by
  refine ⟨?_, by decide, by decide⟩
  intro instructions vars args name hname hurl
  have hsup : SUPPORTED_ACTIONS.contains name = false := by
    rcases hname with h | h <;> subst h <;> decide
  have halias : actionAlias name = some "navigate".data := by
    rcases hname with h | h <;> subst h <;> decide
  simp only [parseCall, hsup, Bool.false_eq_true, if_false, halias, hurl,
    Bool.not_false, and_true, if_true]
  rfl

/-- Witness for the amended C7: `open_url` with no arguments and an
instruction text containing a scheme url yields a navigate action carrying
exactly that url. -/
theorem c7_witness :
    parseCall (some "open https://example.com".data) []
        ⟨"open_url".data, []⟩ =
      some ⟨"navigate".data,
            [("url".data, ArgValue.aStr "https://example.com".data)], none⟩ :=
  ((c7_alias_navigate_salvage.1 (some "open https://example.com".data) []
      [] "open_url".data (Or.inr rfl) (by decide)).trans (by decide))

/-! ## Action interpreter (`PlanRunner._apply_action`)

The browser is modelled by its current url, the history stacks, and a flag
abstracting whether the scroll-target JS finds a scrollable element.
Keyboard and mouse effects on the page are outside the model; summaries
and errors are computed exactly as in the source. -/

/-- Abstract browser state owned by a run. -/
structure BrowserModel where
  url : Str
  backStack : List Str
  fwdStack : List Str
  scrollHitsElement : Bool
deriving DecidableEq, Repr

/-- Prefix `https://` when the url has no scheme (used by `navigate` and
the start-url handling). -/
def ensureHttps (url : Str) : Str :=
  if startsWithStr url "http://".data || startsWithStr url "https://".data then url
  else "https://".data ++ url

/-- `page.goto`: push the old url on the back stack, clear the forward
stack. -/
def browserGoto (b : BrowserModel) (u : Str) : BrowserModel :=
  { b with url := u, backStack := b.url :: b.backStack, fwdStack := [] }

/-- `RUNNER_DEFAULT_SEARCH_URL` default. -/
def DEFAULT_SEARCH_URL : Str := "https://www.google.com/".data

/-- Decimal digit run to a natural number. -/
def digitsToNat (ds : Str) : Nat :=
  ds.foldl (fun acc c => acc * 10 + (c.toNat - '0'.toNat)) 0

/-- Python `float(string)` on simple decimal literals (optional sign,
digits, optional fractional part); exponent and special forms are outside
the model and parse as failures.  A failure in `_to_float` is caught and
becomes `0.0`. -/
def pyParseFloat (s : Str) : Option ℚ :=
  let t := pyStrip s
  let signed : ℚ × Str :=
    match t with
    | c :: r => if c = '-' then (-1, r) else if c = '+' then (1, r) else (1, c :: r)
    | [] => (1, [])
  let intPart := signed.2.takeWhile isDigit09
  let t2 := signed.2.drop intPart.length
  match t2 with
  | [] => if intPart = [] then none else some (signed.1 * digitsToNat intPart)
  | c :: r =>
    if c = '.' then
      let fracPart := r.takeWhile isDigit09
      if r.drop fracPart.length = [] ∧ ¬ (intPart = [] ∧ fracPart = []) then
        some (signed.1 * ((digitsToNat intPart : ℚ) +
          (digitsToNat fracPart : ℚ) / (10 ^ fracPart.length)))
      else none
    else none

/-- Python `int(string)` on simple integer literals. -/
def pyParseInt (s : Str) : Option ℤ :=
  let t := pyStrip s
  let signed : ℤ × Str :=
    match t with
    | c :: r => if c = '-' then (-1, r) else if c = '+' then (1, r) else (1, c :: r)
    | [] => (1, [])
  let digits := signed.2.takeWhile isDigit09
  if digits = [] ∨ ¬ signed.2.drop digits.length = [] then none
  else some (signed.1 * digitsToNat digits)

/-- `_to_float(value)`: `float()` of the value, `0.0` on failure; callers
pass `args.get(key, 0.0)` so a missing key is `0.0` as well. -/
def toFloatPy : Option ArgValue → ℚ
  | some (.aNum q) => q
  | some (.aBool b) => if b then 1 else 0
  | some (.aStr s) =>
    match pyParseFloat s with
    | some q => q
    | none => 0
  | some .aNone => 0
  | none => 0

/-- Python truthiness of an argument value. -/
def pyTruthy : ArgValue → Bool
  | .aStr s => ¬ s = []
  | .aNum q => ¬ q = 0
  | .aBool b => b
  | .aNone => false

/-- Python `str()` of an argument value.  Non-integral numbers are
rendered by the rational printer, an approximation of the float repr that
no theorem depends on. -/
def pyStrOf : ArgValue → Str
  | .aStr s => s
  | .aBool b => if b then "True".data else "False".data
  | .aNum q => if q.den = 1 then (toString q.num).data else (toString q).data
  | .aNone => "None".data

/-- Truncation toward zero, as Python `int()` on a float. -/
def truncQ (q : ℚ) : ℤ :=
  if 0 ≤ q then ⌊q⌋ else -⌊-q⌋

/-- `int(magnitude)` inside `_scroll_deltas`; `none` models the
`TypeError`/`ValueError` that selects the default. -/
def pyIntOf : Option ArgValue → Option ℤ
  | some (.aNum q) => some (truncQ q)
  | some (.aBool b) => some (if b then 1 else 0)
  | some (.aStr s) => pyParseInt s
  | some .aNone => none
  | none => none

/-- `_scroll_deltas(direction, magnitude)`: default magnitude 800, clamp
to `[-2000, 2000]`, axis by direction with down as the default. -/
def scrollDeltas (direction : Str) (magnitude : Option ArgValue) : ℤ × ℤ :=
  let mag0 : ℤ :=
    match pyIntOf magnitude with
    | some m => m
    | none => 800
  let mag := max (-2000) (min 2000 mag0)
  let d := lowerStr direction
  if d = "up".data then (0, -|mag|)
  else if d = "left".data then (-|mag|, 0)
  else if d = "right".data then (|mag|, 0)
  else (0, |mag|)

/-- `str(args.get("direction", "") or "").lower()`. -/
def directionArg (args : Args) : Str :=
  let v :=
    match argsGet args "direction".data with
    | some x => x
    | none => .aStr []
  let v2 := if pyTruthy v then v else .aStr []
  lowerStr (pyStrOf v2)

/-- Integer rendering for summaries. -/
def intToStr (i : ℤ) : Str := (toString i).data

/-- The message of `RunnerError("navigate requires a 'url' argument")`. -/
def navigateUrlErrMsg : Str :=
  "navigate requires a ".data ++ squote :: "url".data ++ squote :: " argument".data

/-- The message of the missing-keys `RunnerError` in `key_combination`. -/
def keyCombinationErrMsg : Str :=
  "key_combination requires a ".data ++ squote :: "keys".data ++
    squote :: " string argument".data

/-- The message of the unsupported-action `RunnerError`. -/
def unsupportedErrMsg (name : Str) : Str :=
  "Unsupported Computer Use action ".data ++ squote :: name ++ [squote]

/-- `PlanRunner._apply_action`: apply one action to the browser, returning
the summary and the optional cursor hint, or the `RunnerError` message
(the `ActionError` of the spec). -/
def applyAction (b : BrowserModel) (a : AgentAction) :
    Except Str (BrowserModel × Str × Option (ℚ × ℚ)) :=
  let name := a.name
  let args := a.args
  if name = "navigate".data then
    match argsGet args "url".data with
    | some (.aStr url) =>
      let u := ensureHttps url
      .ok (browserGoto b u, "navigate -> ".data ++ u, none)
    | _ => .error navigateUrlErrMsg
  else if name = "wait_5_seconds".data then
    .ok (b, "wait_5_seconds".data, none)
  else if name = "go_back".data then
    match b.backStack with
    | [] => .ok (b, "go_back (noop)".data, none)
    | u :: rest =>
      .ok ({ b with url := u, backStack := rest, fwdStack := b.url :: b.fwdStack },
           "go_back".data, none)
  else if name = "go_forward".data then
    match b.fwdStack with
    | [] => .ok (b, "go_forward (noop)".data, none)
    | u :: rest =>
      .ok ({ b with url := u, backStack := b.url :: b.backStack, fwdStack := rest },
           "go_forward".data, none)
  else if name = "search".data then
    .ok (browserGoto b DEFAULT_SEARCH_URL, "search -> ".data ++ DEFAULT_SEARCH_URL, none)
  else if name = "click_at".data ∨ name = "type_text_at".data then
    let xNorm := toFloatPy (argsGet args "x".data)
    let yNorm := toFloatPy (argsGet args "y".data)
    let px := denormalizePoint xNorm yNorm
    let cursor := some (xNorm / NORMALIZED_RANGE, yNorm / NORMALIZED_RANGE)
    .ok (b, name ++ " @".data ++ intToStr px.1 ++ ",".data ++ intToStr px.2, cursor)
  else if name = "hover_at".data then
    let xNorm := toFloatPy (argsGet args "x".data)
    let yNorm := toFloatPy (argsGet args "y".data)
    let cursor := some (xNorm / NORMALIZED_RANGE, yNorm / NORMALIZED_RANGE)
    .ok (b, "hover_at".data, cursor)
  else if name = "scroll_document".data then
    let direction := directionArg args
    .ok (b, "scroll_document ".data ++ (if direction = [] then "down".data else direction),
         none)
  else if name = "scroll_at".data then
    let xNorm := toFloatPy (argsGet args "x".data)
    let yNorm := toFloatPy (argsGet args "y".data)
    let direction := directionArg args
    let cursor := some (xNorm / NORMALIZED_RANGE, yNorm / NORMALIZED_RANGE)
    let label := if b.scrollHitsElement then "element".data else "document".data
    .ok (b, "scroll_at ".data ++ (if direction = [] then "down".data else direction) ++
          " (".data ++ label ++ ")".data, cursor)
  else if name = "drag_and_drop".data then
    let xNorm := toFloatPy (argsGet args "x".data)
    let yNorm := toFloatPy (argsGet args "y".data)
    let dxNorm := toFloatPy (argsGet args "destination_x".data)
    let dyNorm := toFloatPy (argsGet args "destination_y".data)
    let px := denormalizePoint xNorm yNorm
    let dpx := denormalizePoint dxNorm dyNorm
    let cursor := some (dxNorm / NORMALIZED_RANGE, dyNorm / NORMALIZED_RANGE)
    .ok (b, "drag_and_drop ".data ++ intToStr px.1 ++ ",".data ++ intToStr px.2 ++
          "->".data ++ intToStr dpx.1 ++ ",".data ++ intToStr dpx.2, cursor)
  else if name = "key_combination".data then
    match argsGet args "keys".data with
    | some (.aStr keys) =>
      if keys = [] then .error keyCombinationErrMsg
      else .ok (b, "key_combination ".data ++ keys, none)
    | _ => .error keyCombinationErrMsg
  else .error (unsupportedErrMsg name)

/-! ## Step loop (`PlanRunner._run_step`) -/

/-- The events a run publishes to its subscribers. -/
inductive REvent where
  | console (role msg : Str)
  | actionExecuted (stepId action : Str) (args : Args) (summary : Str)
  | frame (stepId : Option Str) (cursor : Option (ℚ × ℚ))
  | checkpointEvaluated (stepId : Str) (score threshold : ℚ) (label : Option Str)
  | checkpointMatched (stepId : Str) (score : ℚ) (label : Option Str)
  | stepStarted (stepId title : Str)
  | stepCompleted (stepId : Str)
  | runCompleted (url : Str)
  | navigateEvent (kind url : Str)
  | runnerStatus (message : Str) (error : Option Str)
  | safetyPrompt (stepId action : Str) (args : Args)
  | variablePrompt (vars : List (Str × VarValue))
  | variablesApplied (vars : List (Str × VarValue))
deriving DecidableEq, Repr

/-- The exceptions that can escape the step loop. -/
inductive RunnerExc where
  | abortRequested
  | runnerError (msg : Str)
  | decisionError (prompt responseSummary : Option Str)
  | pyNameError (name : Str)
deriving DecidableEq, Repr

/-- One stored checkpoint for a step, as filtered by
`_get_step_checkpoints` (a dict carrying `png_base64` and an optional
label). -/
structure Checkpoint where
  pngB64 : Str
  label : Option Str
deriving DecidableEq, Repr

/-- `PlanRunner._ensure_checkpoint_hashes`: the loop body evaluates the
name `_decode_base64_png`, which is defined in the class body of
`PlanRunner` but referenced as a module-level name, so CPython raises
`NameError` on the first iteration whenever the checkpoint list is
nonempty.  With an empty list the loop never runs and the cache entry is
not created. -/
def ensureCheckpointHashes (cps : List Checkpoint) :
    Except RunnerExc (List (Option Str × Nat)) :=
  match cps with
  | [] => .ok []
  | _ :: _ => .error (.pyNameError "_decode_base64_png".data)

/-- The 16 by 16 average hash of `PlanRunner._ahash`, over the list of
greyscale pixel values produced by the (external) decode and resize:
threshold each pixel against the average and pack the bits
most-significant-first. -/
def aHash (pixels : List Nat) : Nat :=
  let total : Nat := pixels.foldl (fun a p => a + p) 0
  let avg : ℚ := (total : ℚ) / (16 * 16)
  pixels.foldl (fun bits p => bits * 2 + (if avg ≤ (p : ℚ) then 1 else 0)) 0

/-- Bit-count with structural fuel (the fuel is the number itself, which
bounds the bit length). -/
def popcountAux : Nat → Nat → Nat
  | 0, _ => 0
  | f + 1, n => if n = 0 then 0 else popcountAux f (n / 2) + n % 2

/-- `PlanRunner._hamming_distance`: popcount of the xor. -/
def hammingDistance (a b : Nat) : Nat :=
  popcountAux (a ^^^ b) (a ^^^ b)

/-- `PlanRunner._hash_similarity`: `max(0, 1 - dist / 256)`. -/
def hashSimilarity (a b : Nat) : ℚ :=
  max 0 (1 - (hammingDistance a b : ℚ) / (16 * 16))

/-- `PlanRunner._visual_match_score` given the cached hashes for the step:
an absent cache entry yields `(0.0, None)`; with a populated cache the
body would evaluate the unbound module names `_decode_base64_png`,
`_ahash` and `_hash_similarity` and raise `NameError` (the cache can in
fact never be populated, see `ensureCheckpointHashes`). -/
def visualMatchScore (cache : List (Option Str × Nat)) :
    Except RunnerExc (ℚ × Option Str) :=
  match cache with
  | [] => .ok (0, none)
  | _ :: _ => .error (.pyNameError "_decode_base64_png".data)

/-- An agent decision (`AgentDecision`). -/
structure Decision where
  prompt : Str
  responseSummary : Str
  actions : List AgentAction
deriving DecidableEq, Repr

/-- The payload of a `RunnerDecisionError`. -/
structure DecisionErr where
  prompt : Option Str
  responseSummary : Option Str
deriving DecidableEq, Repr

/-- The oracles standing for the awaited collaborators of the step loop:
the agent decision per turn, the abort flag per turn check, and the
operator reply to a confirmation request. -/
structure StepOracles where
  decisions : Nat → Except DecisionErr Decision
  abortedAt : Nat → Bool
  confirm : Str × Str × Args → Bool

/-- The running state threaded through one turn. -/
structure TurnAcc where
  browser : BrowserModel
  history : List Str
  events : List REvent
  cursor : Option (ℚ × ℚ)
deriving DecidableEq, Repr

/-- Result of a finished (or aborted) step. -/
structure StepOutcome where
  events : List REvent
  history : List Str
  browser : BrowserModel
  exc : Option RunnerExc
deriving DecidableEq, Repr

/-- `MAX_TURNS_PER_STEP` default. -/
def MAX_TURNS_PER_STEP : Nat := 4

/-- `RUNNER_CHECKPOINT_THRESHOLD` default. -/
def CHECKPOINT_SIMILARITY_THRESHOLD : ℚ := 88/100

/-- Python `round(q, 4)` (half to even on the scaled value). -/
def roundTo4 (q : ℚ) : ℚ :=
  (pyRound (q * 10000) : ℚ) / 10000

/-- `cursor or turn_cursor`: keep the previous turn cursor when the
action produced none. -/
def orElseCursor (cur fallback : Option (ℚ × ℚ)) : Option (ℚ × ℚ) :=
  match cur with
  | some x => some x
  | none => fallback

/-- The action loop of one turn in `_run_step`: confirmation handling,
action application, publication of `action_executed` plus a frame per
successful action, and on an `ActionError` the console advisory, the
history entry, the abort of the remaining actions of the turn and the
`action_failed` flag.  A declined confirmation is the `Except.error` case
(a `RunnerError` escapes the loop). -/
def processActions (stepId : Str) (confirm : Str × Str × Args → Bool) :
    List AgentAction → TurnAcc → Except TurnAcc (TurnAcc × Bool)
  | [], acc => .ok (acc, false)
  | a :: rest, acc =>
    let needsConfirm := a.safety = some (.aStr "require_confirmation".data)
    let acc1 :=
      if needsConfirm then
        { acc with events := acc.events ++ [.safetyPrompt stepId a.name a.args] }
      else acc
    if needsConfirm ∧ confirm (stepId, a.name, a.args) = false then
      .error acc1
    else
      match applyAction acc1.browser a with
      | .error msg =>
        .ok ({ acc1 with
                events := acc1.events ++
                  [.console "Runner".data ("Action failed: ".data ++ msg)],
                history := acc1.history ++ ["error: ".data ++ msg] }, true)
      | .ok (b2, summary, cursor) =>
        let newCursor := orElseCursor cursor acc1.cursor
        processActions stepId confirm rest
          { browser := b2,
            history := acc1.history ++ [summary],
            events := acc1.events ++
              [.actionExecuted stepId a.name a.args summary,
               .frame (some stepId) newCursor],
            cursor := newCursor }

/-- The turn loop of `_run_step`: fuel counts the remaining turns and
`turn` is the 1-based turn index.  Exhausted fuel is the
exceeded-max-turns `RunnerError`; each turn checks the abort flag, asks
the agent, publishes the prompt/response console lines, runs the action
loop, publishes the final frame of the turn, and then either retries after
a failed action, finishes immediately when no visual match is required, or
evaluates the checkpoint score. -/
def runStepLoop (stepId : Str) (orc : StepOracles) (requireVM : Bool)
    (cache : List (Option Str × Nat)) :
    Nat → Nat → TurnAcc → StepOutcome
  | 0, _, acc =>
    ⟨acc.events, acc.history, acc.browser,
     some (.runnerError ("Exceeded max turns for step ".data ++ stepId))⟩
  | fuel + 1, turn, acc =>
    if orc.abortedAt turn then
      ⟨acc.events, acc.history, acc.browser, some .abortRequested⟩
    else
      match orc.decisions turn with
      | .error e =>
        let evs := acc.events ++
          (match e.prompt with
           | some p => [REvent.console "ComputerUse prompt".data p]
           | none => []) ++
          (match e.responseSummary with
           | some r => [REvent.console "ComputerUse response".data r]
           | none => [])
        ⟨evs, acc.history, acc.browser, some (.decisionError e.prompt e.responseSummary)⟩
      | .ok dec =>
        let accP : TurnAcc :=
          { browser := acc.browser, history := acc.history,
            events := acc.events ++
              [.console "ComputerUse prompt".data dec.prompt,
               .console "ComputerUse response".data dec.responseSummary],
            cursor := none }
        match processActions stepId orc.confirm dec.actions accP with
        | .error accD =>
          ⟨accD.events, accD.history, accD.browser,
           some (.runnerError "Action declined by operator".data)⟩
        | .ok (acc2, actionFailed) =>
          let acc3 := { acc2 with
            events := acc2.events ++ [.frame (some stepId) acc2.cursor] }
          if actionFailed then
            runStepLoop stepId orc requireVM cache fuel (turn + 1) acc3
          else if requireVM then
            match visualMatchScore cache with
            | .error e => ⟨acc3.events, acc3.history, acc3.browser, some e⟩
            | .ok (score, label) =>
              let acc4 := { acc3 with
                events := acc3.events ++
                  [.checkpointEvaluated stepId (roundTo4 score)
                     CHECKPOINT_SIMILARITY_THRESHOLD label] }
              if CHECKPOINT_SIMILARITY_THRESHOLD ≤ score then
                ⟨acc4.events ++ [.checkpointMatched stepId (roundTo4 score) label],
                 acc4.history, acc4.browser, none⟩
              else
                runStepLoop stepId orc requireVM cache fuel (turn + 1) acc4
          else
            ⟨acc3.events, acc3.history, acc3.browser, none⟩

/-- `PlanRunner._run_step`: fetch the checkpoints, set the
visual-match-required flag, precompute the hashes (which raises `NameError`
for a nonempty checkpoint list, see `ensureCheckpointHashes`), and run the
turn loop with the default budget. -/
def runStep (stepId : Str) (orc : StepOracles) (cps : List Checkpoint)
    (b : BrowserModel) (hist : List Str) : StepOutcome :=
  let requireVM := ! cps.isEmpty
  if requireVM then
    match ensureCheckpointHashes cps with
    | .error e => ⟨[], hist, b, some e⟩
    | .ok cache =>
      runStepLoop stepId orc true cache MAX_TURNS_PER_STEP 1 ⟨b, hist, [], none⟩
  else
    runStepLoop stepId orc false [] MAX_TURNS_PER_STEP 1 ⟨b, hist, [], none⟩

/-- Oracles for concrete evaluations: one benign action per turn, no
abort, confirmations allowed. -/
def demoOracles : StepOracles where
  decisions := fun _ =>
    .ok ⟨"prompt".data, "summary".data, [⟨"wait_5_seconds".data, [], none⟩]⟩
  abortedAt := fun _ => false
  confirm := fun _ => true

/-- A fresh browser at the blank page. -/
def demoBrowser : BrowserModel := ⟨"about:blank".data, [], [], false⟩

/-- **C2 (code bug).** A step with a checkpoint is supposed to compute the
average-hash fingerprints, publish `checkpoint_evaluated` each turn and
gate `step_completed` on the similarity threshold; instead, running the
step with one checkpoint raises `NameError` at the unbound name
`_decode_base64_png` inside `_ensure_checkpoint_hashes` before the first
turn, so the run fails and no `checkpoint_evaluated` is ever published. -/
theorem c2_checkpoint_step_raises_name_error :
    runStep "s1".data demoOracles [⟨"iVBORw0KGgo".data, some "reference".data⟩]
        demoBrowser [] =
      ⟨[], [], demoBrowser, some (.pyNameError "_decode_base64_png".data)⟩ ∧
    (runStep "s1".data demoOracles [⟨"iVBORw0KGgo".data, some "reference".data⟩]
        demoBrowser []).events.countP
      (fun e => match e with
        | .checkpointEvaluated _ _ _ _ => true
        | _ => false) = 0 := by
  exact ⟨rfl, rfl⟩

/-- All-successful application of a list of actions, collecting per action
the summary and the cursor hint (the statement-side companion of the
action loop, built directly on `applyAction`). -/
def applyAll (b : BrowserModel) :
    List AgentAction →
      Option (BrowserModel × List (AgentAction × Str × Option (ℚ × ℚ)))
  | [] => some (b, [])
  | a :: rest =>
    match applyAction b a with
    | .error _ => none
    | .ok (b2, s, cur) =>
      match applyAll b2 rest with
      | some (b3, out) => some (b3, (a, s, cur) :: out)
      | none => none

/-- The events and final cursor of a run of successful actions: one
`action_executed` and one frame per action, threading the turn cursor. -/
def successTrace (stepId : Str) :
    List (AgentAction × Str × Option (ℚ × ℚ)) → Option (ℚ × ℚ) →
      List REvent × Option (ℚ × ℚ)
  | [], c => ([], c)
  | (a, s, cur) :: rest, c =>
    let c2 := orElseCursor cur c
    let t := successTrace stepId rest c2
    (REvent.actionExecuted stepId a.name a.args s ::
       REvent.frame (some stepId) c2 :: t.1, t.2)

lemma processActions_fail (stepId : Str) (confirm : Str × Str × Args → Bool) :
    ∀ (pref : List AgentAction) (afail : AgentAction) (suff : List AgentAction)
      (acc : TurnAcc) (b2 : BrowserModel)
      (out : List (AgentAction × Str × Option (ℚ × ℚ))) (m : Str),
      (∀ x ∈ pref, ¬ x.safety = some (.aStr "require_confirmation".data)) →
      ¬ afail.safety = some (.aStr "require_confirmation".data) →
      applyAll acc.browser pref = some (b2, out) →
      applyAction b2 afail = .error m →
      processActions stepId confirm (pref ++ afail :: suff) acc =
        .ok ({ browser := b2,
               history := acc.history ++ out.map (fun p => p.2.1) ++
                 ["error: ".data ++ m],
               events := acc.events ++ (successTrace stepId out acc.cursor).1 ++
                 [.console "Runner".data ("Action failed: ".data ++ m)],
               cursor := (successTrace stepId out acc.cursor).2 }, true) := by
  intro pref
  induction pref with
  | nil =>
    intro afail suff acc b2 out m hno hnof happ hfail
    simp only [applyAll] at happ
    injection happ with happ
    injection happ with h1 h2
    subst h1
    subst h2
    simp only [List.nil_append, processActions, hnof, false_and, if_false,
      if_neg hnof, hfail, successTrace, List.map_nil, List.append_nil]
  | cons p rest ih =>
    intro afail suff acc b2 out m hno hnof happ hfail
    have hnop : ¬ p.safety = some (.aStr "require_confirmation".data) :=
      hno p (List.mem_cons_self _ _)
    simp only [applyAll] at happ
    cases hap : applyAction acc.browser p with
    | error e => rw [hap] at happ; exact absurd happ (by simp)
    | ok res =>
      rw [hap] at happ
      obtain ⟨bp, s, cur⟩ := res
      dsimp only at happ
      cases hrest : applyAll bp rest with
      | none => rw [hrest] at happ; exact absurd happ (by simp)
      | some pr =>
        rw [hrest] at happ
        obtain ⟨b3, out2⟩ := pr
        injection happ with happ
        injection happ with h1 h2
        subst h1
        subst h2
        have step := ih afail suff
          { browser := bp,
            history := acc.history ++ [s],
            events := acc.events ++
              [.actionExecuted stepId p.name p.args s,
               .frame (some stepId) (orElseCursor cur acc.cursor)],
            cursor := orElseCursor cur acc.cursor }
          b3 out2 m (fun x hx => hno x (List.mem_cons_of_mem _ hx)) hnof hrest hfail
        simp only [List.cons_append, List.append_eq, processActions, hnop,
          false_and, if_false, if_neg hnop, hap] at step ⊢
        rw [step]
        simp [successTrace, orElseCursor, List.append_assoc]

lemma runStepLoop_continue_after_fail (stepId : Str) (orc : StepOracles)
    (requireVM : Bool) (cache : List (Option Str × Nat)) (fuel turn : Nat)
    (acc acc2 : TurnAcc) (dec : Decision)
    (habort : orc.abortedAt turn = false)
    (hdec : orc.decisions turn = .ok dec)
    (hproc : processActions stepId orc.confirm dec.actions
        { browser := acc.browser, history := acc.history,
          events := acc.events ++
            [.console "ComputerUse prompt".data dec.prompt,
             .console "ComputerUse response".data dec.responseSummary],
          cursor := none } = .ok (acc2, true)) :
    runStepLoop stepId orc requireVM cache (fuel + 1) turn acc =
      runStepLoop stepId orc requireVM cache fuel (turn + 1)
        { acc2 with events := acc2.events ++ [.frame (some stepId) acc2.cursor] } := by
  simp only [runStepLoop, habort, Bool.false_eq_true, if_false, hdec, hproc,
    if_true]

/-- **C3.** An action that fails inside a turn is recovered locally and is
not terminal by itself: the action loop returns normally (no exception)
with the `action_failed` flag set, having published one `console` line
carrying the error text and no `action_executed` for the failed action,
appended `error: <msg>` to the history, executed exactly the actions
before the failure and skipped every action after it; and the turn loop
then proceeds with the next turn. -/
theorem c3_action_error_recovered_locally :
    (∀ (stepId : Str) (confirm : Str × Str × Args → Bool)
       (pref : List AgentAction) (afail : AgentAction) (suff : List AgentAction)
       (acc : TurnAcc) (b2 : BrowserModel)
       (out : List (AgentAction × Str × Option (ℚ × ℚ))) (m : Str),
      (∀ x ∈ pref, ¬ x.safety = some (.aStr "require_confirmation".data)) →
      ¬ afail.safety = some (.aStr "require_confirmation".data) →
      applyAll acc.browser pref = some (b2, out) →
      applyAction b2 afail = .error m →
      processActions stepId confirm (pref ++ afail :: suff) acc =
        .ok ({ browser := b2,
               history := acc.history ++ out.map (fun p => p.2.1) ++
                 ["error: ".data ++ m],
               events := acc.events ++ (successTrace stepId out acc.cursor).1 ++
                 [.console "Runner".data ("Action failed: ".data ++ m)],
               cursor := (successTrace stepId out acc.cursor).2 }, true)) ∧
    (∀ (stepId : Str) (orc : StepOracles) (requireVM : Bool)
       (cache : List (Option Str × Nat)) (fuel turn : Nat)
       (acc acc2 : TurnAcc) (dec : Decision),
      orc.abortedAt turn = false →
      orc.decisions turn = .ok dec →
      processActions stepId orc.confirm dec.actions
          { browser := acc.browser, history := acc.history,
            events := acc.events ++
              [.console "ComputerUse prompt".data dec.prompt,
               .console "ComputerUse response".data dec.responseSummary],
            cursor := none } = .ok (acc2, true) →
      runStepLoop stepId orc requireVM cache (fuel + 1) turn acc =
        runStepLoop stepId orc requireVM cache fuel (turn + 1)
          { acc2 with events := acc2.events ++ [.frame (some stepId) acc2.cursor] }) :=
  ⟨processActions_fail, runStepLoop_continue_after_fail⟩

/-- Witness for C3, the scenario of the spec: a `navigate` with no
arguments fails with the url-argument error, yielding one Runner console
line, an `error:` history entry, no `action_executed`, and the turn marked
failed. -/
theorem c3_witness :
    processActions "s1".data (fun _ => true)
        [⟨"navigate".data, [], none⟩] ⟨demoBrowser, [], [], none⟩ =
      .ok (⟨demoBrowser,
            ["error: ".data ++ navigateUrlErrMsg],
            [.console "Runner".data ("Action failed: ".data ++ navigateUrlErrMsg)],
            none⟩, true) :=
  (c3_action_error_recovered_locally.1 "s1".data (fun _ => true) []
      ⟨"navigate".data, [], none⟩ [] ⟨demoBrowser, [], [], none⟩ demoBrowser []
      navigateUrlErrMsg (by intro x hx; cases hx) (by decide) rfl
      (by decide)).trans (by decide)

/-! ## Run task terminal status (`api.py::runs_start._runner_task`)

The payload fields of a status other than `message` and `error` (such as
the url of `browser_ready` or the run id of `started`) are elided from
`REvent.runnerStatus`. -/

/-- The outcome of `plan_runner.run` as observed by `_runner_task`: a
normal return or the propagating exception.  `RunnerDecisionError` is a
subclass of `RunnerError` and therefore lands in the runner-error case;
`AbortRequested` is matched by its own earlier clause. -/
inductive RunOutcome where
  | ok
  | abortRequested
  | runnerError (msg : Str)
  | otherException (msg : Str)
deriving DecidableEq, Repr

/-- Whether a message is a terminal `runner_status`
(`completed`/`aborted`/`failed`). -/
def isTerminalStatus : REvent → Bool
  | .runnerStatus msg _ =>
    msg = "completed".data || msg = "aborted".data || msg = "failed".data
  | _ => false

/-- The terminal `runner_status` published by `_runner_task` and the
status string stored on the run state, per outcome. -/
def terminalFor : RunOutcome → REvent × Str
  | .ok => (.runnerStatus "completed".data none, "completed".data)
  | .abortRequested => (.runnerStatus "aborted".data none, "aborted".data)
  | .runnerError m => (.runnerStatus "failed".data (some m), "failed".data)
  | .otherException m => (.runnerStatus "failed".data (some m), "failed".data)

/-- The observable result of `_runner_task`: the events the run published
before finishing, followed by the one terminal status; the stored status;
and `completed_at`, set in the `finally` block. -/
structure RunnerTaskResult where
  published : List REvent
  status : Str
  completedAtSet : Bool
deriving DecidableEq, Repr

/-- `_runner_task`: whatever the runner published, then exactly one
terminal status matching the outcome, with `completed_at` set. -/
def runnerTask (runEvents : List REvent) (o : RunOutcome) : RunnerTaskResult :=
  { published := runEvents ++ [(terminalFor o).1],
    status := (terminalFor o).2,
    completedAtSet := true }

/-- Every `publish` call reachable during a run outside `_runner_task`,
enumerated from `runner.py` (startup status, start-url navigate, console
lines, variable handshake, step and checkpoint events, action and frame
events), `RunState.request_abort` and the `started` status of
`runs_start`. -/
inductive RunnerPublish where
  | browserReady (url : Str)
  | startUrlNavigate (url : Str)
  | consoleLine (role msg : Str)
  | variablesAppliedMsg (vars : List (Str × VarValue))
  | variablePromptMsg (vars : List (Str × VarValue))
  | safetyPromptMsg (stepId action : Str) (args : Args)
  | stepStartedMsg (stepId title : Str)
  | stepCompletedMsg (stepId : Str)
  | runCompletedMsg (url : Str)
  | checkpointEvaluatedMsg (stepId : Str) (score threshold : ℚ) (label : Option Str)
  | checkpointMatchedMsg (stepId : Str) (score : ℚ) (label : Option Str)
  | actionExecutedMsg (stepId action : Str) (args : Args) (summary : Str)
  | frameMsg (stepId : Option Str) (cursor : Option (ℚ × ℚ))
  | abortRequestedMsg
  | startedMsg

/-- The message published for each call site. -/
def publishEvent : RunnerPublish → REvent
  | .browserReady _ => .runnerStatus "browser_ready".data none
  | .startUrlNavigate url => .navigateEvent "start_url".data url
  | .consoleLine role msg => .console role msg
  | .variablesAppliedMsg vars => .variablesApplied vars
  | .variablePromptMsg vars => .variablePrompt vars
  | .safetyPromptMsg stepId action args => .safetyPrompt stepId action args
  | .stepStartedMsg stepId title => .stepStarted stepId title
  | .stepCompletedMsg stepId => .stepCompleted stepId
  | .runCompletedMsg url => .runCompleted url
  | .checkpointEvaluatedMsg stepId score threshold label =>
      .checkpointEvaluated stepId score threshold label
  | .checkpointMatchedMsg stepId score label => .checkpointMatched stepId score label
  | .actionExecutedMsg stepId action args summary =>
      .actionExecuted stepId action args summary
  | .frameMsg stepId cursor => .frame stepId cursor
  | .abortRequestedMsg => .runnerStatus "abort_requested".data none
  | .startedMsg => .runnerStatus "started".data none

/-- **C1.** Every publish a run performs outside `_runner_task` is
non-terminal, and `_runner_task` appends exactly one terminal
`runner_status` — `completed` on a normal return, `aborted` when
`AbortRequested` propagates, `failed` for `RunnerError` and any other
exception — and sets `completed_at` at that point. -/
theorem c1_exactly_one_terminal_status :
    (∀ p : RunnerPublish, isTerminalStatus (publishEvent p) = false) ∧
    (∀ (runEvents : List REvent) (o : RunOutcome),
      (∀ e ∈ runEvents, isTerminalStatus e = false) →
      (runnerTask runEvents o).published.countP isTerminalStatus = 1 ∧
      (runnerTask runEvents o).completedAtSet = true ∧
      (runnerTask runEvents o).status =
        (match o with
         | .ok => "completed".data
         | .abortRequested => "aborted".data
         | .runnerError _ => "failed".data
         | .otherException _ => "failed".data) ∧
      isTerminalStatus (terminalFor o).1 = true) := by
  constructor
  · intro p
    cases p <;> rfl
  · intro runEvents o hrun
    have hzero : runEvents.countP isTerminalStatus = 0 := by
      refine List.countP_eq_zero.mpr ?_
      intro e he
      simp [hrun e he]
    have hterm : isTerminalStatus (terminalFor o).1 = true := by
      cases o <;> rfl
    refine ⟨?_, rfl, ?_, hterm⟩
    · simp only [runnerTask, List.countP_append, hzero, Nat.zero_add]
      simp [List.countP_cons, hterm]
    · cases o <;> rfl

/-- Witness for C1: a run that only published a `step_started` and then
returned normally sees exactly one terminal status. -/
theorem c1_witness :
    (runnerTask [REvent.stepStarted "s1".data "Greet".data]
        RunOutcome.ok).published.countP isTerminalStatus = 1 :=
  (c1_exactly_one_terminal_status.2
    [REvent.stepStarted "s1".data "Greet".data] RunOutcome.ok (by decide)).1

/-! ## Run state abort (`api.py::RunState.request_abort`) -/

/-- The one-shot variable-request future. -/
inductive VarFuture where
  | pending
  | doneValues (values : List (Str × VarValue))
  | doneAbort
deriving DecidableEq, Repr

/-- The one-shot confirmation future. -/
inductive ConfFuture where
  | pending
  | doneReply (allowed : Bool)
deriving DecidableEq, Repr

/-- The abort-relevant part of a `RunState`: the abort event, the two
pending futures (absent when no request is outstanding) and the published
messages. -/
structure RunStateM where
  abortSet : Bool
  varsFuture : Option VarFuture
  confFuture : Option ConfFuture
  published : List REvent
deriving DecidableEq, Repr

/-- `RunState.request_abort`: set the abort event; complete the variable
future with `AbortRequested` when one is outstanding and not already done;
publish `runner_status{abort_requested}`.  The confirmation future is not
touched. -/
def requestAbort (s : RunStateM) : RunStateM :=
  let s1 := { s with abortSet := true }
  let s2 := { s1 with
    varsFuture :=
      match s1.varsFuture with
      | some .pending => some .doneAbort
      | other => other }
  { s2 with
    published := s2.published ++ [.runnerStatus "abort_requested".data none] }

/-- **C4.** `request_abort` sets the abort signal, fails a pending
variable-request future with `AbortRequested` (leaving an absent or
already-completed future as it was), publishes the `abort_requested`
status, and does not resolve a pending confirmation future. -/
theorem c4_request_abort_behaviour :
    ∀ s : RunStateM,
      (requestAbort s).abortSet = true ∧
      (requestAbort s).confFuture = s.confFuture ∧
      (requestAbort s).varsFuture =
        (match s.varsFuture with
         | some .pending => some .doneAbort
         | other => other) ∧
      (requestAbort s).published =
        s.published ++ [.runnerStatus "abort_requested".data none] := by
  intro s
  exact ⟨rfl, rfl, rfl, rfl⟩

/-! ## Teach session manager (`runner.py::TeachManager`) -/

/-- The manager dict of sessions: session id mapped to the running flag,
in insertion order (Python dict semantics). -/
structure TMState where
  sessions : List (Str × Bool)
deriving DecidableEq, Repr

/-- The operations of the manager. -/
inductive TMOp where
  | start (sessionId : Str)
  | stopAny
  | stopId (sessionId : Str)
deriving DecidableEq, Repr

/-- Python dict assignment: replace in place, append when the key is
new. -/
def dictInsert (d : List (Str × Bool)) (k : Str) (v : Bool) : List (Str × Bool) :=
  if (d.find? fun p => p.1 = k).isSome then
    d.map fun p => if p.1 = k then (p.1, v) else p
  else d ++ [(k, v)]

/-- `TeachManager.start`: open a fresh browser and insert a new running
session under a fresh millisecond id.  Existing sessions are neither
checked nor stopped. -/
def tmStart (st : TMState) (sessionId : Str) : TMState :=
  { sessions := dictInsert st.sessions sessionId true }

/-- `TeachManager.stop`: with no id pop the most recently inserted session
(`dict.popitem`), with an id pop that session; an empty manager or an
unknown id is reported as a failure and changes nothing. -/
def tmStop (st : TMState) (sessionId : Option Str) : TMState :=
  match sessionId with
  | none =>
    match st.sessions with
    | [] => st
    | _ :: _ => { sessions := st.sessions.dropLast }
  | some sid => { sessions := st.sessions.filter fun p => ¬ p.1 = sid }

/-- One manager operation. -/
def tmStep (st : TMState) : TMOp → TMState
  | .start sid => tmStart st sid
  | .stopAny => tmStop st none
  | .stopId sid => tmStop st (some sid)

/-- Execute a sequence of operations from the empty manager. -/
def tmRun (ops : List TMOp) : TMState :=
  ops.foldl tmStep ⟨[]⟩

/-- The number of sessions that are present and running. -/
def activeCount (st : TMState) : Nat :=
  (st.sessions.filter fun p => p.2).length

/-- Membership of a session id. -/
def hasSession (st : TMState) (sid : Str) : Bool :=
  (st.sessions.find? fun p => p.1 = sid).isSome

/-- **C6 (counterexample).** Starting two teach sessions without an
intervening stop reaches a manager state with two simultaneously active
sessions: the claimed single-active invariant is false. -/
theorem c6_counterexample_two_active_sessions :
    2 ≤ activeCount (tmRun [.start "teach_1700000000000".data,
                            .start "teach_1700000000001".data]) := by
  decide

lemma stopId_removes_at_most_one (sid : Str) :
    ∀ l : List (Str × Bool), (l.map Prod.fst).Nodup →
      (l.filter fun p => p.2).length ≤
        ((l.filter fun p => ¬ p.1 = sid).filter fun p => p.2).length + 1 := by
  intro l
  induction l with
  | nil => intro _; simp
  | cons hd tl ih =>
    intro hnd
    simp only [List.map_cons, List.nodup_cons] at hnd
    obtain ⟨hnotin, hnd2⟩ := hnd
    by_cases hk : hd.1 = sid
    · have htl : (tl.filter fun p => ¬ p.1 = sid) = tl := by
        refine List.filter_eq_self.mpr ?_
        intro p hp
        have hpk : ¬ p.1 = sid := by
          intro hcon
          refine hnotin ?_
          have h1 : hd.1 = p.1 := by rw [hk, hcon]
          rw [h1]
          exact List.mem_map_of_mem Prod.fst hp
        simpa using hpk
      have hcond : (decide (¬ hd.1 = sid)) = false := by simp [hk]
      have hdrop : ((hd :: tl).filter fun p => ¬ p.1 = sid) = tl := by
        rw [List.filter_cons, hcond]
        simpa using htl
      rw [hdrop]
      rw [List.filter_cons]
      by_cases hv : hd.2
      · simp only [hv, if_true]
        simp
      · simp only [hv, Bool.false_eq_true, if_false]
        exact Nat.le_succ _
    · have hcond : (decide (¬ hd.1 = sid)) = true := by simp [hk]
      have hdrop : ((hd :: tl).filter fun p => ¬ p.1 = sid) =
          hd :: (tl.filter fun p => ¬ p.1 = sid) := by
        rw [List.filter_cons, hcond]
        simp
      rw [hdrop]
      rw [List.filter_cons, List.filter_cons]
      by_cases hv : hd.2
      · simp only [hv, if_true, List.length_cons]
        exact Nat.succ_le_succ (ih hnd2)
      · simp only [hv, Bool.false_eq_true, if_false]
        exact ih hnd2

lemma filter_dropLast_length (l : List (Str × Bool)) :
    (l.filter fun p => p.2).length ≤ (l.dropLast.filter fun p => p.2).length + 1 := by
  rcases eq_or_ne l [] with h | h
  · subst h; simp
  · conv_lhs => rw [← List.dropLast_append_getLast h]
    rw [List.filter_append, List.length_append]
    have hle : ([l.getLast h].filter fun p => p.2).length ≤ 1 := by
      by_cases hv : (l.getLast h).2 <;> simp [hv]
    omega

/-- **C6 (amended).** `TeachManager` does not enforce a single-active
invariant: a start with a fresh id adds one more active session while
every existing session stays in the manager untouched, and a stop (by id
or popitem) removes at most one session — so consecutive starts accumulate
simultaneously active sessions, and the invariant of the claim holds only
for operation sequences that stop the previous session before each
start. -/
theorem c6_start_accumulates_stop_removes_at_most_one :
    (∀ (st : TMState) (sid : Str), hasSession st sid = false →
      activeCount (tmStart st sid) = activeCount st + 1) ∧
    (∀ (st : TMState) (sid : Str), hasSession st sid = false →
      ∀ p ∈ st.sessions, p ∈ (tmStart st sid).sessions) ∧
    (∀ st : TMState, activeCount st ≤ activeCount (tmStop st none) + 1) ∧
    (∀ (st : TMState) (sid : Str), (st.sessions.map Prod.fst).Nodup →
      activeCount st ≤ activeCount (tmStop st (some sid)) + 1) := by
  refine ⟨?_, ?_, ?_, ?_⟩
  · intro st sid hfresh
    have : (st.sessions.find? fun p => p.1 = sid).isSome = false := hfresh
    simp [tmStart, dictInsert, activeCount, this, List.filter_append]
  · intro st sid hfresh p hp
    have : (st.sessions.find? fun p => p.1 = sid).isSome = false := hfresh
    simp only [tmStart, dictInsert, this, Bool.false_eq_true, if_false]
    exact List.mem_append_left _ hp
  · intro st
    rcases hs : st.sessions with _ | ⟨hd, tl⟩
    · simp [tmStop, hs, activeCount]
    · simp only [tmStop, hs, activeCount]
      exact filter_dropLast_length (hd :: tl)
  · intro st sid hnd
    exact stopId_removes_at_most_one sid st.sessions hnd

/-- Witness for the amended C6: starting a second session with a fresh id
on a manager that already holds one active session yields two active
sessions. -/
theorem c6_witness :
    activeCount (tmStart ⟨[("teach_1".data, true)]⟩ "teach_2".data) = 2 :=
  (c6_start_accumulates_stop_removes_at_most_one.1
      ⟨[("teach_1".data, true)]⟩ "teach_2".data (by decide)).trans (by decide)

/-! ## Teach pointer events

`ws_teach` (api.py) drives `session.record_mouse_move`,
`session.record_mouse_down` and `session.record_mouse_up`, but these
methods are not defined anywhere under the repository sources — only their
call sites exist.  The three definitions below are modelled from the spec
(sections on the teach event logging and the drag-detection scenario). -/

/-- Element metadata captured by the click probe, abstracted to key-value
pairs. -/
abbrev ProbeMeta := List (Str × Str)

/-- Modelled from the spec: the pointer events a teach session can emit —
exactly one `drag` or one `click` per mouse down/up pair. -/
inductive PointerEvent where
  | click (x y : Int) (button : Str) (meta : ProbeMeta)
  | drag (startX startY endX endY : Int) (duration : ℚ) (button : Str)
      (endMeta : ProbeMeta)
deriving DecidableEq, Repr

/-- Modelled from the spec: the state retained between a mouse down and
the matching mouse up — down position and time, button, probe metadata,
and whether movement has already exceeded the drag threshold. -/
structure MouseDownState where
  x : Int
  y : Int
  ts : ℚ
  button : Str
  meta : ProbeMeta
  moved : Bool
deriving DecidableEq, Repr

/-- Modelled from the spec: the pointer-relevant part of a teach session:
the emitted events and the outstanding mouse-down state. -/
structure PointerSession where
  events : List PointerEvent
  downState : Option MouseDownState
deriving DecidableEq, Repr

/-- The movement measure: Chebyshev distance from the down point. -/
def moveDist (x1 y1 x2 y2 : Int) : Int :=
  max |x2 - x1| |y2 - y1|

/-- Modelled from the spec: `record_mouse_down` stores the down state and
the click-probe metadata; no event is emitted yet. -/
def recordMouseDown (s : PointerSession) (now : ℚ) (x y : Int) (button : Str)
    (meta : ProbeMeta) : PointerSession :=
  { s with downState := some ⟨x, y, now, button, meta, false⟩ }

/-- Modelled from the spec: `record_mouse_move` enters drag tracking while
a mouse down is outstanding: once the movement from the down point exceeds
the threshold, the pair is committed to being a drag. -/
def recordMouseMove (movThreshold : Int) (s : PointerSession) (x y : Int) :
    PointerSession :=
  match s.downState with
  | none => s
  | some d =>
    if movThreshold < moveDist d.x d.y x y then
      { s with downState := some { d with moved := true } }
    else s

/-- Modelled from the spec: `record_mouse_up` emits exactly one event for
the down/up pair — a `drag` carrying start, end, duration, button and the
release metadata when the movement exceeded the threshold (during a move
or at the release point) or the hold exceeded the duration threshold, and
otherwise a single `click` carrying position, button and metadata — and
consumes the down state.  A mouse up with no outstanding down is
ignored. -/
def recordMouseUp (movThreshold : Int) (durThreshold : ℚ) (s : PointerSession)
    (now : ℚ) (x y : Int) (button : Str) (meta : ProbeMeta) : PointerSession :=
  match s.downState with
  | none => s
  | some d =>
    let isDrag : Bool :=
      d.moved || decide (movThreshold < moveDist d.x d.y x y) ||
        decide (durThreshold < now - d.ts)
    let ev :=
      if isDrag then
        PointerEvent.drag d.x d.y x y (now - d.ts) button meta
      else
        PointerEvent.click x y button meta
    { events := s.events ++ [ev], downState := none }

/-- **C5** (modelled from the spec; the `record_mouse_*` methods are
absent from the sources).  For every mouse down/up pair the session
appends exactly one pointer event and clears the down state: a `drag` with
start, end, duration and button precisely when the movement or duration
threshold was exceeded, and otherwise a single `click` — never both. -/
theorem c5_exactly_one_drag_or_click_per_pair :
    ∀ (movT : Int) (durT : ℚ) (s : PointerSession) (d : MouseDownState)
      (now : ℚ) (x y : Int) (button : Str) (meta : ProbeMeta),
      s.downState = some d →
      ((recordMouseUp movT durT s now x y button meta).events.length =
          s.events.length + 1) ∧
      ((recordMouseUp movT durT s now x y button meta).downState = none) ∧
      ((recordMouseUp movT durT s now x y button meta).events.drop
          s.events.length =
        [if d.moved || decide (movT < moveDist d.x d.y x y) ||
             decide (durT < now - d.ts)
         then PointerEvent.drag d.x d.y x y (now - d.ts) button meta
         else PointerEvent.click x y button meta]) := by
  intro movT durT s d now x y button meta hdown
  simp only [recordMouseUp, hdown]
  refine ⟨by simp, by simp, ?_⟩
  rw [List.drop_left]

/-- Witness for C5, the drag scenario of the spec: down at `(100, 100)`,
moves through `(140, 140)` and `(400, 400)`, up at `(400, 400)` with the
left button yields exactly one `drag` event and no `click`. -/
theorem c5_witness :
    (recordMouseUp 5 10
        (recordMouseMove 5
          (recordMouseMove 5
            (recordMouseDown ⟨[], none⟩ 0 100 100 "left".data []) 140 140)
          400 400)
        1 400 400 "left".data []).events =
      [PointerEvent.drag 100 100 400 400 1 "left".data []] := by
  have h := c5_exactly_one_drag_or_click_per_pair 5 10
    (recordMouseMove 5
      (recordMouseMove 5
        (recordMouseDown ⟨[], none⟩ 0 100 100 "left".data []) 140 140)
      400 400)
    ⟨100, 100, 0, "left".data, [], true⟩ 1 400 400 "left".data [] (by decide)
  have h3 := h.2.2
  rw [show (recordMouseMove 5
      (recordMouseMove 5
        (recordMouseDown ⟨[], none⟩ 0 100 100 "left".data []) 140 140)
      400 400).events.length = 0 from by decide, List.drop_zero] at h3
  rw [h3]
  norm_num

/-! ## Teach stop markers and checkpoint derivation
(`runner.py::TeachManager.stop`, `api.py::teach_stop`,
`synthesis.py::PlanSynthesizer._derive_step_checkpoints`) -/

/-- `TEACH_MAX_FRAMES` default. -/
def TEACH_MAX_FRAMES : Nat := 360

/-- `TEACH_FRAME_INTERVAL_SECONDS` default. -/
def TEACH_FRAME_INTERVAL : ℚ := 1

/-- A captured frame: seconds since teach start and base64 png. -/
structure FrameM where
  timestamp : ℚ
  png : Str
deriving DecidableEq, Repr

/-- The capture-relevant part of a `TeachSession`. -/
structure TeachSessionM where
  recordingId : Str
  frames : List FrameM
  events : List (ℚ × Str)
  running : Bool
  lastFrameTs : ℚ
  createdAt : ℚ
deriving DecidableEq, Repr

/-- `TeachSession.capture_frame`: store the screenshot when forced, when
the buffer is empty, or when the sampling interval has elapsed; cap the
FIFO at `TEACH_MAX_FRAMES` by dropping the oldest frame. -/
def captureFrame (s : TeachSessionM) (now : ℚ) (png : Str) (force : Bool) :
    TeachSessionM :=
  let elapsed := now - s.createdAt
  let shouldStore := force || s.frames.isEmpty ||
    decide (TEACH_FRAME_INTERVAL ≤ elapsed - s.lastFrameTs)
  if shouldStore then
    let fs := s.frames ++ [⟨elapsed, png⟩]
    let fs2 := if TEACH_MAX_FRAMES < fs.length then fs.drop 1 else fs
    { s with frames := fs2, lastFrameTs := elapsed }
  else s

/-- The result payload of `TeachManager.stop` for a found session:
`markers` is hardcoded to the empty list in the source. -/
structure TeachStopResult where
  ok : Bool
  recordingId : Str
  frames : List FrameM
  markers : List (ℚ × Option Str)
  events : List (ℚ × Str)
deriving DecidableEq, Repr

/-- `TeachManager.stop` acting on the popped session: mark it not running,
force one final frame capture, close the browser, and return the bundle
payload with an empty marker list. -/
def teachManagerStop (s : TeachSessionM) (now : ℚ) (finalPng : Str) :
    TeachStopResult :=
  let s2 := { s with running := false }
  let s3 := captureFrame s2 now finalPng true
  { ok := true, recordingId := s.recordingId, frames := s3.frames,
    markers := [], events := s3.events }

/-- The recording bundle as consumed by checkpoint derivation. -/
structure RecBundleM where
  frames : List FrameM
  markers : List (ℚ × Option Str)
deriving DecidableEq, Repr

/-- The bundle persisted by the `teach_stop` endpoint: frames and markers
parsed back from the stop-result payload. -/
def teachStopBundle (r : TeachStopResult) : RecBundleM :=
  { frames := r.frames, markers := r.markers }

/-- A plan step as used by checkpoint derivation. -/
structure StepM where
  id : Str
  title : Str
deriving DecidableEq, Repr

/-- Stable insertion into a timestamp-sorted marker list (Python `sorted`
with the timestamp key is a stable sort). -/
def insertByTs (x : ℚ × Option Str) : List (ℚ × Option Str) → List (ℚ × Option Str)
  | [] => [x]
  | y :: r => if x.1 ≤ y.1 then x :: y :: r else y :: insertByTs x r

/-- Stable sort of the markers by timestamp. -/
def sortByTs : List (ℚ × Option Str) → List (ℚ × Option Str)
  | [] => []
  | x :: r => insertByTs x (sortByTs r)

/-- The marker-aligned targets of `_derive_step_checkpoints`: sorted
marker timestamps, truncated to the number of steps. -/
def markerTargets (markers : List (ℚ × Option Str)) (nSteps : Nat) : List ℚ :=
  ((sortByTs markers).map Prod.fst).take nSteps

/-- The even-distribution targets of `_derive_step_checkpoints` used when
no markers exist: timestamps spread evenly over the observed frame
range. -/
def evenTargets (frameTs : List ℚ) (nSteps : Nat) : List ℚ :=
  let startTs := frameTs.headD 0
  let endTs := frameTs.getLastD 0
  if endTs ≤ startTs then List.replicate nSteps startTs
  else
    let span := endTs - startTs
    (List.range nSteps).map fun i =>
      startTs + (i : ℚ) * (span / ((max 1 (nSteps - 1) : Nat) : ℚ))

/-- The linear nearest-frame search of `_derive_step_checkpoints`
(strictly smaller distance wins, so the earliest of equally near frames is
chosen; the initial best distance is infinite). -/
def nearestIndex (frameTs : List ℚ) (ts : ℚ) : Nat :=
  (frameTs.foldl
    (fun acc fts =>
      match acc with
      | (_, none, i) => (i, some |fts - ts|, i + 1)
      | (bestI, some bd, i) =>
        if |fts - ts| < bd then (i, some |fts - ts|, i + 1)
        else (bestI, some bd, i + 1))
    ((0 : Nat), (none : Option ℚ), (0 : Nat))).1

/-- `_derive_step_checkpoints`: empty mapping without frames or steps;
marker-aligned targets when markers exist, else the even-distribution
fallback; one nearest frame per step, keyed by step id and labelled with
the step title. -/
def deriveStepCheckpoints (rec : RecBundleM) (steps : List StepM) :
    List (Str × List (Str × Str)) :=
  if rec.frames.isEmpty || steps.isEmpty then []
  else
    let frameTs := rec.frames.map (·.timestamp)
    let framePng := rec.frames.map (·.png)
    let targets :=
      if ¬ rec.markers.isEmpty then markerTargets rec.markers steps.length
      else evenTargets frameTs steps.length
    steps.enum.map fun p =>
      let t := targets.getD p.1 (frameTs.getLastD 0)
      let idx := nearestIndex frameTs t
      (p.2.id, [(framePng.getD idx [], p.2.title)])

/-- **C10.** Stopping a teach session always returns an empty marker list
(teach capture never records markers), the bundle persisted by the stop
endpoint therefore has zero markers, and checkpoint derivation for a
markerless bundle always takes the even-distribution fallback (never
marker alignment). -/
theorem c10_teach_stop_has_no_markers :
    (∀ (s : TeachSessionM) (now : ℚ) (png : Str),
        (teachManagerStop s now png).markers = []) ∧
    (∀ r : TeachStopResult, (teachStopBundle r).markers = r.markers) ∧
    (∀ (s : TeachSessionM) (now : ℚ) (png : Str),
        (teachStopBundle (teachManagerStop s now png)).markers = []) ∧
    (∀ (rec : RecBundleM) (steps : List StepM),
        rec.markers = [] →
        deriveStepCheckpoints rec steps =
          (if rec.frames.isEmpty || steps.isEmpty then []
           else
             steps.enum.map fun p =>
               let frameTs := rec.frames.map (·.timestamp)
               let t := (evenTargets frameTs steps.length).getD p.1
                 (frameTs.getLastD 0)
               (p.2.id,
                [((rec.frames.map (·.png)).getD (nearestIndex frameTs t) [],
                  p.2.title)]))) := by
  refine ⟨fun _ _ _ => rfl, fun _ => rfl, fun _ _ _ => rfl, ?_⟩
  intro rec steps hm
  simp [deriveStepCheckpoints, hm]

/-- Witness for C10: a two-frame markerless bundle with one step derives
the single even-distribution checkpoint labelled with the step title. -/
theorem c10_witness :
    deriveStepCheckpoints ⟨[⟨0, "png0".data⟩, ⟨2, "png1".data⟩], []⟩
        [⟨"s1".data, "Greet".data⟩] =
      [("s1".data, [("png0".data, "Greet".data)])] := by
  have h := c10_teach_stop_has_no_markers.2.2.2
    ⟨[⟨0, "png0".data⟩, ⟨2, "png1".data⟩], []⟩
    [⟨"s1".data, "Greet".data⟩] rfl
  rw [h]
  norm_num [evenTargets, nearestIndex, List.enum, List.enumFrom, List.getD]
  norm_num [List.range_succ, List.range_zero]

end ShowAndTell
